import Mathlib

/-!
Shallow embedding of the Space Shooter mini-game simulation core
(spaceship movement, bullet and asteroid lifecycle, collision
resolution, scoring, difficulty scaling and the start/game-over state
machine).  Coordinates and speeds are modelled as exact rationals; the
randomness consumed by the spawners is passed in explicitly as draw
parameters.
-/

namespace SpaceShooter

/-- A live bullet: unique id and position.  Bullets are created at the
ship's x with launch y = -3 and move upward. -/
structure Bullet where
  id : Nat
  x : ℚ
  y : ℚ
  deriving DecidableEq, Repr

/-- A live asteroid: unique id, horizontal position (constant for its
lifetime), per-frame downward speed, cosmetic color index and integer
health (3 at spawn). -/
structure Asteroid where
  id : Nat
  x : ℚ
  speed : ℚ
  colorIndex : Nat
  health : Int
  deriving DecidableEq, Repr

/-- An explosion effect: unique id and the position it was created at. -/
structure Explosion where
  id : Nat
  x : ℚ
  y : ℚ
  deriving DecidableEq, Repr

/-- The game session state: ship target x, the three entity stores, the
score, lifecycle flags, elapsed game time in seconds, and the three
monotone id counters. -/
structure GameState where
  shipPos : ℚ
  bullets : List Bullet
  asteroids : List Asteroid
  explosions : List Explosion
  score : Nat
  gameOver : Bool
  gameStarted : Bool
  gameTime : Nat
  bulletId : Nat
  asteroidId : Nat
  explosionId : Nat
  deriving DecidableEq, Repr

/-- Difficulty controller: base asteroid speed as a function of elapsed
game time, `0.012 + min(t*0.0003, 0.015)`. -/
def baseSpeed (t : Nat) : ℚ := 0.012 + min ((t : ℚ) * 0.0003) 0.015

/-- Difficulty controller: additive random speed range,
`0.008 + min(t*0.0002, 0.007)`. -/
def speedVariation (t : Nat) : ℚ := 0.008 + min ((t : ℚ) * 0.0002) 0.007

/-- Whether the session is accepting gameplay input and timers
(`gameStarted && !gameOver`). -/
def playing (s : GameState) : Bool := s.gameStarted && !s.gameOver

/-- The `shoot` callback: append one bullet at the ship's current x and
launch y = -3, with a fresh id. -/
def shoot (s : GameState) : GameState :=
  { s with
    bullets := s.bullets ++ [{ id := s.bulletId, x := s.shipPos, y := -3 }]
    bulletId := s.bulletId + 1 }

/-- The steady-state asteroid spawn: one asteroid appended with
x = (rx - 0.5)*8, speed = baseSpeed(t) + rs * speedVariation(t),
health 3 and a fresh id.  `rx` and `rs` are the two uniform draws. -/
def spawnAsteroid (s : GameState) (rx rs : ℚ) (rc : Nat) : GameState :=
  { s with
    asteroids := s.asteroids ++
      [{ id := s.asteroidId, x := (rx - 0.5) * 8,
         speed := baseSpeed s.gameTime + rs * speedVariation s.gameTime,
         colorIndex := rc, health := 3 }]
    asteroidId := s.asteroidId + 1 }

/-- Outcome of resolving one registered hit against the asteroid store:
the surviving asteroids, the explosions created, the score delta and
the advanced explosion id counter. -/
structure HitResult where
  asts : List Asteroid
  exps : List Explosion
  delta : Nat
  eid : Nat
  deriving Repr

/-- The body of `handleAsteroidHit`'s store update: map over the
asteroid store; the asteroid with the hit id loses 1 health, is removed
with an explosion and +30 when the new health is ≤ 0, and persists with
+5 otherwise.  The explosion position uses the JavaScript truthiness
fallbacks `hitX || asteroid.x` and `hitY || 0`. -/
def resolveHit (aid : Nat) (hx hy : ℚ) : List Asteroid → Nat → HitResult
  | [], eid => ⟨[], [], 0, eid⟩
  | a :: rest, eid =>
    if a.id = aid then
      if a.health - 1 ≤ 0 then
        let r := resolveHit aid hx hy rest (eid + 1)
        ⟨r.asts,
         { id := eid, x := if hx = 0 then a.x else hx,
           y := if hy = 0 then 0 else hy } :: r.exps,
         r.delta + 30, r.eid⟩
      else
        let r := resolveHit aid hx hy rest eid
        ⟨{ a with health := a.health - 1 } :: r.asts, r.exps, r.delta + 5, r.eid⟩
    else
      let r := resolveHit aid hx hy rest eid
      ⟨a :: r.asts, r.exps, r.delta, r.eid⟩

/-- `handleAsteroidHit`: resolve the hit against the asteroid store and
remove the consumed bullet from the bullet store. -/
def handleAsteroidHit (s : GameState) (aid bid : Nat) (hx hy : ℚ) : GameState :=
  let r := resolveHit aid hx hy s.asteroids s.explosionId
  { s with
    asteroids := r.asts
    explosions := s.explosions ++ r.exps
    score := s.score + r.delta
    explosionId := r.eid
    bullets := s.bullets.filter (fun b => b.id ≠ bid) }

/-- `handleGameOver`: create the triggering explosion, set the
game-over flag, and clear the asteroid and bullet stores.  The score
is left unchanged. -/
def handleGameOver (s : GameState) (x y : ℚ) : GameState :=
  { s with
    explosions := s.explosions ++ [{ id := s.explosionId, x := x, y := y }]
    explosionId := s.explosionId + 1
    gameOver := true
    asteroids := []
    bullets := [] }

/-- `handleBulletRemove`: drop an off-screen bullet by id. -/
def handleBulletRemove (s : GameState) (bid : Nat) : GameState :=
  { s with bullets := s.bullets.filter (fun b => b.id ≠ bid) }

/-- `handleExplosionComplete`: drop a finished explosion by id. -/
def handleExplosionComplete (s : GameState) (eid : Nat) : GameState :=
  { s with explosions := s.explosions.filter (fun e => e.id ≠ eid) }

/-- One initial asteroid of `startGame`: x = (rx - 0.5)*8 and speed
drawn from the baseline range 0.012 + rs*0.008, health 3.  The draw
triple is (rx, rs, colorIndex). -/
def initialAsteroid (i : Nat) (d : ℚ × ℚ × Nat) : Asteroid :=
  { id := i, x := (d.1 - 0.5) * 8, speed := 0.012 + d.2.1 * 0.008,
    colorIndex := d.2.2, health := 3 }

/-- `startGame`, used both by the initial start and by restart: spawn
3 asteroids immediately from the three draw triples, clear bullets and
explosions, reset score, game time and ship position, and mark the
session as playing.  Id counters are not reset. -/
def startGame (s : GameState) (d1 d2 d3 : ℚ × ℚ × Nat) : GameState :=
  { shipPos := 0
    bullets := []
    asteroids := [initialAsteroid s.asteroidId d1,
                  initialAsteroid (s.asteroidId + 1) d2,
                  initialAsteroid (s.asteroidId + 2) d3]
    explosions := []
    score := 0
    gameOver := false
    gameStarted := true
    gameTime := 0
    bulletId := s.bulletId
    asteroidId := s.asteroidId + 3
    explosionId := s.explosionId }

/-- Whether a bullet qualifies to hit an asteroid at (ax, ay): the
bullet lies in the engagement band -3 < y < 6 and both axis-aligned
distances are below 0.5. -/
def qualifies (ax ay : ℚ) (b : Bullet) : Bool :=
  (decide (-3 < b.y) && decide (b.y < 6)) &&
  (decide (|ax - b.x| < 0.5) && decide (|ay - b.y| < 0.5))

/-- The bullet scan of the asteroid frame handler: the first bullet in
store iteration order that qualifies, if any. -/
def findHitBullet (ax ay : ℚ) : List Bullet → Option Bullet
  | [] => none
  | b :: rest => if qualifies ax ay b then some b else findHitBullet ax ay rest

/-- The event an asteroid's per-frame handler reports. -/
inductive FrameOutcome where
  | quiet (newY : ℚ)
  | hit (aid bid : Nat) (hx hy : ℚ)
  | shipCollision (x y : ℚ)
  | passThrough (x y : ℚ)
  deriving DecidableEq, Repr

/-- The `useFrame` body of an asteroid: move down by `speed`, then
(i) if not in hit cooldown and below the shield at y < 3, scan the
bullet store and report a hit on the first qualifying bullet,
returning immediately; otherwise (ii) report a ship collision when
both axis distances to the ship at (shipX, -3.5) are below 0.5;
otherwise (iii) report a pass-through when y has dropped below -4.5;
otherwise keep falling. -/
def asteroidFrame (shipX : ℚ) (bullets : List Bullet) (cooldown : Bool)
    (a : Asteroid) (y : ℚ) : FrameOutcome :=
  let y2 := y - a.speed
  match (if !cooldown && decide (y2 < 3) then findHitBullet a.x y2 bullets else none) with
  | some b => .hit a.id b.id a.x y2
  | none =>
    if decide (|a.x - shipX| < 0.5) && decide (|y2 - (-3.5)| < 0.5) then
      .shipCollision a.x y2
    else if decide (y2 < -4.5) then
      .passThrough a.x y2
    else
      .quiet y2

/-- The discrete events that mutate the session state during one
session, with the random draws they consume passed explicitly. -/
inductive GEvent where
  | eHit (aid bid : Nat) (hx hy : ℚ)
  | eGameOver (x y : ℚ)
  | eShoot
  | eBulletRemove (bid : Nat)
  | eSpawn (rx rs : ℚ) (rc : Nat)
  | eTick
  | eExplosionDone (eid : Nat)
  | eMoveLeft
  | eMoveRight
  | eMoveTo (x : ℚ)
  deriving DecidableEq, Repr

/-- Dispatch one event to the handler the source installs for it.  The
timer- and input-driven events are gated on the session being in the
playing state, as their effects are only registered then; the
collision and cleanup callbacks are not gated. -/
def step (s : GameState) : GEvent → GameState
  | .eHit aid bid hx hy => handleAsteroidHit s aid bid hx hy
  | .eGameOver x y => handleGameOver s x y
  | .eShoot => if playing s then shoot s else s
  | .eBulletRemove bid => handleBulletRemove s bid
  | .eSpawn rx rs rc => if playing s then spawnAsteroid s rx rs rc else s
  | .eTick => if playing s then { s with gameTime := s.gameTime + 1 } else s
  | .eExplosionDone i => handleExplosionComplete s i
  | .eMoveLeft =>
      if playing s then { s with shipPos := max (-4) (s.shipPos - 0.5) } else s
  | .eMoveRight =>
      if playing s then { s with shipPos := min 4 (s.shipPos + 0.5) } else s
  | .eMoveTo x =>
      if playing s then { s with shipPos := max (-4) (min 4 x) } else s

/-- Run a sequence of events from a state. -/
def run (s : GameState) : List GEvent → GameState
  | [] => s
  | e :: evs => run (step s e) evs

/-- How many asteroids of the store a hit event strikes non-lethally
(health still positive after the decrement). -/
def nonLethalAt (s : GameState) : GEvent → Nat
  | .eHit aid _ _ _ =>
      (s.asteroids.filter (fun a => decide (a.id = aid) && decide (1 < a.health))).length
  | _ => 0

/-- How many asteroids of the store a hit event destroys (health ≤ 0
after the decrement). -/
def destroyAt (s : GameState) : GEvent → Nat
  | .eHit aid _ _ _ =>
      (s.asteroids.filter (fun a => decide (a.id = aid) && decide (a.health ≤ 1))).length
  | _ => 0

/-- Total non-lethal hits resolved along a run. -/
def totalNonLethal (s : GameState) : List GEvent → Nat
  | [] => 0
  | e :: evs => nonLethalAt s e + totalNonLethal (step s e) evs

/-- Total destroys resolved along a run. -/
def totalDestroy (s : GameState) : List GEvent → Nat
  | [] => 0
  | e :: evs => destroyAt s e + totalDestroy (step s e) evs

/-- Every asteroid of the live store has health between 1 and 3. -/
def healthInv (s : GameState) : Prop :=
  ∀ a ∈ s.asteroids, 1 ≤ a.health ∧ a.health ≤ 3

instance (s : GameState) : Decidable (healthInv s) := by
  unfold healthInv; infer_instance

/-- Opacity of an explosion after n frame ticks: starts at 1 and loses
0.05 per tick. -/
def opacityAfter : Nat → ℚ
  | 0 => 1
  | n + 1 => opacityAfter n - 0.05

/-- A small mid-session playing state: one bullet at (2, 1) and one
fresh asteroid at x = 2.1 with speed 0.1, used to instantiate the
theorems at the spec's end-to-end scenario. -/
def sampleState : GameState :=
  { shipPos := 0
    bullets := [{ id := 0, x := 2, y := 1 }]
    asteroids := [{ id := 0, x := 21/10, speed := 1/10, colorIndex := 0, health := 3 }]
    explosions := []
    score := 0
    gameOver := false
    gameStarted := true
    gameTime := 0
    bulletId := 1
    asteroidId := 1
    explosionId := 0 }

/-- The sample asteroid of `sampleState`. -/
def sampleAsteroid : Asteroid :=
  { id := 0, x := 21/10, speed := 1/10, colorIndex := 0, health := 3 }

/-- The sample bullet of `sampleState`. -/
def sampleBullet : Bullet := { id := 0, x := 2, y := 1 }

/-- The sample asteroid worn down to health 1. -/
def sampleAsteroidOneHp : Asteroid := { sampleAsteroid with health := 1 }

/-- The sample state with its asteroid already reduced to health 1 and
the bullet store empty. -/
def sampleStateOneHp : GameState :=
  { sampleState with bullets := [], asteroids := [sampleAsteroidOneHp] }

/-! ### Helper lemmas about hit resolution and the bullet scan -/

lemma jsOr_self (q : ℚ) : (if q = 0 then (0 : ℚ) else q) = q := by
  by_cases h : q = 0 <;> simp [h]

lemma resolveHit_nomatch (aid : Nat) (hx hy : ℚ) (l : List Asteroid) (eid : Nat)
    (h : ∀ a ∈ l, a.id ≠ aid) :
    resolveHit aid hx hy l eid = ⟨l, [], 0, eid⟩ := by
  induction l with
  | nil => simp [resolveHit]
  | cons a rest ih =>
    have ha : a.id ≠ aid := h a (by simp)
    have hrest : ∀ b ∈ rest, b.id ≠ aid := fun b hb => h b (by simp [hb])
    simp [resolveHit, ha, ih hrest]

lemma resolveHit_surv (aid : Nat) (hx hy : ℚ) (p q : List Asteroid) (a : Asteroid)
    (eid : Nat) (hp : ∀ c ∈ p, c.id ≠ aid) (hq : ∀ c ∈ q, c.id ≠ aid)
    (ha : a.id = aid) (hh : ¬ a.health - 1 ≤ 0) :
    resolveHit aid hx hy (p ++ a :: q) eid =
      ⟨p ++ { a with health := a.health - 1 } :: q, [], 5, eid⟩ := by
  induction p with
  | nil =>
    simp [resolveHit, ha, hh, resolveHit_nomatch aid hx hy q eid hq]
  | cons c p ih =>
    have hc : c.id ≠ aid := hp c (by simp)
    have hp' : ∀ d ∈ p, d.id ≠ aid := fun d hd => hp d (by simp [hd])
    simp [resolveHit, hc, ih hp']

lemma resolveHit_destroy (aid : Nat) (hx hy : ℚ) (p q : List Asteroid) (a : Asteroid)
    (eid : Nat) (hp : ∀ c ∈ p, c.id ≠ aid) (hq : ∀ c ∈ q, c.id ≠ aid)
    (ha : a.id = aid) (hh : a.health - 1 ≤ 0) :
    resolveHit aid hx hy (p ++ a :: q) eid =
      ⟨p ++ q,
       [{ id := eid, x := if hx = 0 then a.x else hx, y := if hy = 0 then 0 else hy }],
       30, eid + 1⟩ := by
  induction p with
  | nil =>
    simp [resolveHit, ha, hh, resolveHit_nomatch aid hx hy q (eid + 1) hq]
  | cons c p ih =>
    have hc : c.id ≠ aid := hp c (by simp)
    have hp' : ∀ d ∈ p, d.id ≠ aid := fun d hd => hp d (by simp [hd])
    simp [resolveHit, hc, ih hp']

lemma resolveHit_delta (aid : Nat) (hx hy : ℚ) (l : List Asteroid) (eid : Nat) :
    (resolveHit aid hx hy l eid).delta =
      5 * (l.filter (fun a => decide (a.id = aid) && decide (1 < a.health))).length +
      30 * (l.filter (fun a => decide (a.id = aid) && decide (a.health ≤ 1))).length := by
  induction l generalizing eid with
  | nil => simp [resolveHit]
  | cons a rest ih =>
    by_cases hid : a.id = aid
    · by_cases hh : a.health - 1 ≤ 0
      · have h1 : a.health ≤ 1 := by omega
        have h2 : ¬ 1 < a.health := by omega
        simp [resolveHit, hid, hh, List.filter_cons, h1, h2, ih]
        omega
      · have h1 : ¬ a.health ≤ 1 := by omega
        have h2 : 1 < a.health := by omega
        simp [resolveHit, hid, hh, List.filter_cons, h1, h2, ih]
        omega
    · simp [resolveHit, hid, List.filter_cons, ih]

lemma resolveHit_health (aid : Nat) (hx hy : ℚ) (l : List Asteroid) (eid : Nat)
    (h : ∀ a ∈ l, 1 ≤ a.health ∧ a.health ≤ 3) :
    ∀ b ∈ (resolveHit aid hx hy l eid).asts, 1 ≤ b.health ∧ b.health ≤ 3 := by
  induction l generalizing eid with
  | nil => simp [resolveHit]
  | cons a rest ih =>
    have ha := h a (by simp)
    have hrest : ∀ b ∈ rest, 1 ≤ b.health ∧ b.health ≤ 3 :=
      fun b hb => h b (by simp [hb])
    by_cases hid : a.id = aid
    · by_cases hh : a.health - 1 ≤ 0
      · simpa [resolveHit, hid, hh] using ih (eid + 1) hrest
      · intro b hb
        simp [resolveHit, hid, hh] at hb
        rcases hb with hb | hb
        · subst hb; constructor <;> simp <;> omega
        · exact ih eid hrest b hb
    · intro b hb
      simp [resolveHit, hid] at hb
      rcases hb with hb | hb
      · subst hb; exact ha
      · exact ih eid hrest b hb

lemma findHitBullet_none (ax ay : ℚ) (l : List Bullet)
    (h : ∀ c ∈ l, qualifies ax ay c = false) :
    findHitBullet ax ay l = none := by
  induction l with
  | nil => simp [findHitBullet]
  | cons b rest ih =>
    have hb : qualifies ax ay b = false := h b (by simp)
    have hrest : ∀ c ∈ rest, qualifies ax ay c = false :=
      fun c hc => h c (by simp [hc])
    simp [findHitBullet, hb, ih hrest]

lemma findHitBullet_first (ax ay : ℚ) (p q : List Bullet) (b : Bullet)
    (hp : ∀ c ∈ p, qualifies ax ay c = false) (hb : qualifies ax ay b = true) :
    findHitBullet ax ay (p ++ b :: q) = some b := by
  induction p with
  | nil => simp [findHitBullet, hb]
  | cons c p ih =>
    have hc : qualifies ax ay c = false := hp c (by simp)
    have hp' : ∀ d ∈ p, qualifies ax ay d = false := fun d hd => hp d (by simp [hd])
    simp [findHitBullet, hc, ih hp']

/-! ### Per-step and per-run lemmas -/

lemma step_score (s : GameState) (e : GEvent) :
    (step s e).score = s.score + (5 * nonLethalAt s e + 30 * destroyAt s e) := by
  cases e with
  | eHit aid bid hx hy =>
    simp [step, handleAsteroidHit, nonLethalAt, destroyAt, resolveHit_delta]
  | eGameOver x y => simp [step, handleGameOver, nonLethalAt, destroyAt]
  | eShoot =>
    by_cases h : playing s <;> simp [step, shoot, h, nonLethalAt, destroyAt]
  | eBulletRemove bid => simp [step, handleBulletRemove, nonLethalAt, destroyAt]
  | eSpawn rx rs rc =>
    by_cases h : playing s <;> simp [step, spawnAsteroid, h, nonLethalAt, destroyAt]
  | eTick => by_cases h : playing s <;> simp [step, h, nonLethalAt, destroyAt]
  | eExplosionDone i =>
    simp [step, handleExplosionComplete, nonLethalAt, destroyAt]
  | eMoveLeft => by_cases h : playing s <;> simp [step, h, nonLethalAt, destroyAt]
  | eMoveRight => by_cases h : playing s <;> simp [step, h, nonLethalAt, destroyAt]
  | eMoveTo x => by_cases h : playing s <;> simp [step, h, nonLethalAt, destroyAt]

lemma run_score (s : GameState) (evs : List GEvent) :
    (run s evs).score = s.score + (5 * totalNonLethal s evs + 30 * totalDestroy s evs) := by
  induction evs generalizing s with
  | nil => simp [run, totalNonLethal, totalDestroy]
  | cons e evs ih =>
    simp only [run, totalNonLethal, totalDestroy, ih (step s e), step_score]
    omega

lemma step_health (s : GameState) (e : GEvent) (h : healthInv s) :
    healthInv (step s e) := by
  cases e with
  | eHit aid bid hx hy =>
    intro a ha
    exact resolveHit_health aid hx hy s.asteroids s.explosionId h a ha
  | eGameOver x y => intro a ha; simp [step, handleGameOver] at ha
  | eShoot => by_cases hp : playing s <;> simp [step, shoot, hp, healthInv] <;> exact h
  | eBulletRemove bid =>
    intro a ha; exact h a ha
  | eSpawn rx rs rc =>
    by_cases hp : playing s
    · intro a ha
      simp [step, spawnAsteroid, hp] at ha
      rcases ha with ha | ha
      · exact h a ha
      · simp [ha]
    · simpa [step, hp] using h
  | eTick => by_cases hp : playing s <;> simp [step, hp, healthInv] <;> exact fun a ha => h a ha
  | eExplosionDone i => intro a ha; exact h a ha
  | eMoveLeft => by_cases hp : playing s <;> simp [step, hp, healthInv] <;> exact fun a ha => h a ha
  | eMoveRight => by_cases hp : playing s <;> simp [step, hp, healthInv] <;> exact fun a ha => h a ha
  | eMoveTo x => by_cases hp : playing s <;> simp [step, hp, healthInv] <;> exact fun a ha => h a ha

lemma run_health (s : GameState) (evs : List GEvent) (h : healthInv s) :
    healthInv (run s evs) := by
  induction evs generalizing s with
  | nil => exact h
  | cons e evs ih => exact ih (step s e) (step_health s e h)

lemma step_ship (s : GameState) (e : GEvent)
    (h : -4 ≤ s.shipPos ∧ s.shipPos ≤ 4) :
    -4 ≤ (step s e).shipPos ∧ (step s e).shipPos ≤ 4 := by
  obtain ⟨h1, h2⟩ := h
  cases e with
  | eHit aid bid hx hy => exact ⟨h1, h2⟩
  | eGameOver x y => exact ⟨h1, h2⟩
  | eShoot => by_cases hp : playing s <;> simp [step, shoot, hp] <;> exact ⟨h1, h2⟩
  | eBulletRemove bid => exact ⟨h1, h2⟩
  | eSpawn rx rs rc =>
    by_cases hp : playing s <;> simp [step, spawnAsteroid, hp] <;> exact ⟨h1, h2⟩
  | eTick => by_cases hp : playing s <;> simp [step, hp] <;> exact ⟨h1, h2⟩
  | eExplosionDone i => exact ⟨h1, h2⟩
  | eMoveLeft =>
    by_cases hp : playing s
    · simp only [step]; rw [if_pos hp]
      exact ⟨le_max_left _ _, max_le (by norm_num) (by linarith)⟩
    · simp only [step]; rw [if_neg hp]
      exact ⟨h1, h2⟩
  | eMoveRight =>
    by_cases hp : playing s
    · simp only [step]; rw [if_pos hp]
      exact ⟨le_min (by norm_num) (by linarith), min_le_left _ _⟩
    · simp only [step]; rw [if_neg hp]
      exact ⟨h1, h2⟩
  | eMoveTo x =>
    by_cases hp : playing s
    · simp only [step]; rw [if_pos hp]
      exact ⟨le_max_left _ _, max_le (by norm_num) (min_le_left _ _)⟩
    · simp only [step]; rw [if_neg hp]
      exact ⟨h1, h2⟩

lemma run_ship (s : GameState) (evs : List GEvent)
    (h : -4 ≤ s.shipPos ∧ s.shipPos ≤ 4) :
    -4 ≤ (run s evs).shipPos ∧ (run s evs).shipPos ≤ 4 := by
  induction evs generalizing s with
  | nil => exact h
  | cons e evs ih => exact ih (step s e) (step_ship s e h)

lemma opacityAfter_eq (n : Nat) : opacityAfter n = 1 - (n : ℚ) * 0.05 := by
  induction n with
  | zero => simp [opacityAfter]
  | succ n ih => simp [opacityAfter, ih]; ring

lemma filter_remove_bullet (p q : List Bullet) (bid : Nat)
    (h : ∀ c ∈ p ++ q, c.id ≠ bid) (b : Bullet) (hb : b.id = bid) :
    (p ++ b :: q).filter (fun c => c.id ≠ bid) = p ++ q := by
  induction p with
  | nil =>
    have hq : ∀ c ∈ q, c.id ≠ bid := fun c hc => h c (by simp [hc])
    simp only [List.nil_append, List.filter_cons]
    rw [if_neg (by simp [hb])]
    exact List.filter_eq_self.mpr fun c hc => by simpa using hq c hc
  | cons c p ih =>
    have hc : c.id ≠ bid := h c (by simp)
    have h' : ∀ d ∈ p ++ q, d.id ≠ bid := fun d hd => h d (by simp at hd; simp [hd])
    simp only [List.cons_append, List.filter_cons]
    rw [if_pos (by simp [hc]), ih h']

lemma step_hit_surv (s : GameState) (p q : List Asteroid) (a : Asteroid)
    (aid bid : Nat) (hx hy : ℚ)
    (hA : s.asteroids = p ++ a :: q) (hid : a.id = aid)
    (hp : ∀ c ∈ p, c.id ≠ aid) (hq : ∀ c ∈ q, c.id ≠ aid)
    (hh : ¬ a.health - 1 ≤ 0) :
    (step s (GEvent.eHit aid bid hx hy)).asteroids =
      p ++ { a with health := a.health - 1 } :: q ∧
    (step s (GEvent.eHit aid bid hx hy)).score = s.score + 5 ∧
    (step s (GEvent.eHit aid bid hx hy)).explosions = s.explosions ∧
    (step s (GEvent.eHit aid bid hx hy)).explosionId = s.explosionId := by
  have hr := resolveHit_surv aid hx hy p q a s.explosionId hp hq hid hh
  simp only [step, handleAsteroidHit, hA, hr]
  simp

lemma step_hit_destroy (s : GameState) (p q : List Asteroid) (a : Asteroid)
    (aid bid : Nat) (hx hy : ℚ)
    (hA : s.asteroids = p ++ a :: q) (hid : a.id = aid)
    (hp : ∀ c ∈ p, c.id ≠ aid) (hq : ∀ c ∈ q, c.id ≠ aid)
    (hxa : hx = a.x) (hh : a.health - 1 ≤ 0) :
    (step s (GEvent.eHit aid bid hx hy)).asteroids = p ++ q ∧
    (step s (GEvent.eHit aid bid hx hy)).score = s.score + 30 ∧
    (step s (GEvent.eHit aid bid hx hy)).explosions =
      s.explosions ++ [{ id := s.explosionId, x := a.x, y := hy }] ∧
    (step s (GEvent.eHit aid bid hx hy)).explosionId = s.explosionId + 1 := by
  subst hxa
  have hr := resolveHit_destroy aid a.x hy p q a s.explosionId hp hq hid hh
  simp only [step, handleAsteroidHit, hA, hr]
  simp [ite_self, jsOr_self]

/-! ### The claims -/

/-- C1: while a session runs, the score changes only through resolved
hits — +5 per non-lethal hit and +30 per destroy — so after any event
sequence the score equals its starting value plus 5 times the
non-lethal hits plus 30 times the destroys resolved along the way, and
it never decreases. -/
theorem score_additive_monotone (s : GameState) (evs : List GEvent) :
    (run s evs).score =
      s.score + (5 * totalNonLethal s evs + 30 * totalDestroy s evs) ∧
    s.score ≤ (run s evs).score := by
  refine ⟨run_score s evs, ?_⟩
  rw [run_score]
  omega

/-- C2: every asteroid in the live store has health in {1, 2, 3}: the
invariant is preserved by every event (a hit that drives health to 0
removes the asteroid in the same resolution step), and a spawn appends
an asteroid with health exactly 3. -/
theorem health_invariant_preserved (s : GameState) (evs : List GEvent)
    (h : healthInv s) :
    healthInv (run s evs) ∧
    ∀ (rx rs : ℚ) (rc : Nat), playing s = true →
      (step s (GEvent.eSpawn rx rs rc)).asteroids =
        s.asteroids ++
          [{ id := s.asteroidId, x := (rx - 0.5) * 8,
             speed := baseSpeed s.gameTime + rs * speedVariation s.gameTime,
             colorIndex := rc, health := 3 }] := by
  refine ⟨run_health s evs h, ?_⟩
  intro rx rs rc hp
  simp only [step]
  rw [if_pos hp]
  rfl

/-- Witness for C2 at the sample state and a hit event. -/
theorem health_invariant_preserved_witness :
    healthInv (run sampleState [GEvent.eHit 0 0 (21/10) (12/10)]) ∧
    ∀ (rx rs : ℚ) (rc : Nat), playing sampleState = true →
      (step sampleState (GEvent.eSpawn rx rs rc)).asteroids =
        sampleState.asteroids ++
          [{ id := sampleState.asteroidId, x := (rx - 0.5) * 8,
             speed := baseSpeed sampleState.gameTime +
               rs * speedVariation sampleState.gameTime,
             colorIndex := rc, health := 3 }] :=
  health_invariant_preserved sampleState [GEvent.eHit 0 0 (21/10) (12/10)]
    (by decide)

/-- C3: when an asteroid not in hit cooldown is below the shield
(y < 3 after this frame's movement) and some live bullet in the band
-3 < y < 6 is within 0.5 of it on both axes, the frame registers a hit
on the first such bullet in store order (one single outcome per
frame); resolving that hit removes the bullet, decrements the
asteroid's health by 1, adds 5 to the score, creates no explosion and
keeps the asteroid in the store. -/
theorem bullet_hit_resolution (shipX y : ℚ) (s : GameState) (a : Asteroid)
    (apre apost : List Asteroid) (b : Bullet) (bpre brest : List Bullet)
    (hA : s.asteroids = apre ++ a :: apost)
    (hAu : ∀ c ∈ apre ++ apost, c.id ≠ a.id)
    (hh : 2 ≤ a.health)
    (hB : s.bullets = bpre ++ b :: brest)
    (hBu : ∀ c ∈ bpre ++ brest, c.id ≠ b.id)
    (hbq : qualifies a.x (y - a.speed) b = true)
    (hbp : ∀ c ∈ bpre, qualifies a.x (y - a.speed) c = false)
    (hy : y - a.speed < 3) :
    asteroidFrame shipX s.bullets false a y =
      FrameOutcome.hit a.id b.id a.x (y - a.speed) ∧
    (step s (GEvent.eHit a.id b.id a.x (y - a.speed))).bullets = bpre ++ brest ∧
    (step s (GEvent.eHit a.id b.id a.x (y - a.speed))).asteroids =
      apre ++ { a with health := a.health - 1 } :: apost ∧
    (step s (GEvent.eHit a.id b.id a.x (y - a.speed))).score = s.score + 5 ∧
    (step s (GEvent.eHit a.id b.id a.x (y - a.speed))).explosions =
      s.explosions := by
  have hpre : ∀ c ∈ apre, c.id ≠ a.id :=
    fun c hc => hAu c (List.mem_append_left _ hc)
  have hpost : ∀ c ∈ apost, c.id ≠ a.id :=
    fun c hc => hAu c (List.mem_append_right _ hc)
  obtain ⟨ha1, ha2, ha3, _⟩ :=
    step_hit_surv s apre apost a a.id b.id a.x (y - a.speed) hA rfl hpre hpost
      (by omega)
  have hfind : findHitBullet a.x (y - a.speed) s.bullets = some b := by
    rw [hB]; exact findHitBullet_first _ _ bpre brest b hbp hbq
  refine ⟨?_, ?_, ha1, ha2, ha3⟩
  · simp only [asteroidFrame, Bool.not_false, Bool.true_and]
    rw [if_pos (by simpa using hy), hfind]
  · show s.bullets.filter (fun c => c.id ≠ b.id) = bpre ++ brest
    rw [hB]
    exact filter_remove_bullet bpre brest b.id hBu b rfl

/-- Witness for C3 at the spec's end-to-end scenario 2: bullet at
(2, 1), asteroid at (2.1, 1.2) after movement, health 3. -/
theorem bullet_hit_resolution_witness :
    asteroidFrame 0 sampleState.bullets false sampleAsteroid (13/10) =
      FrameOutcome.hit sampleAsteroid.id sampleBullet.id sampleAsteroid.x
        (13/10 - sampleAsteroid.speed) ∧
    (step sampleState (GEvent.eHit sampleAsteroid.id sampleBullet.id
        sampleAsteroid.x (13/10 - sampleAsteroid.speed))).bullets = [] ++ [] ∧
    (step sampleState (GEvent.eHit sampleAsteroid.id sampleBullet.id
        sampleAsteroid.x (13/10 - sampleAsteroid.speed))).asteroids =
      [] ++ { sampleAsteroid with health := sampleAsteroid.health - 1 } :: [] ∧
    (step sampleState (GEvent.eHit sampleAsteroid.id sampleBullet.id
        sampleAsteroid.x (13/10 - sampleAsteroid.speed))).score =
      sampleState.score + 5 ∧
    (step sampleState (GEvent.eHit sampleAsteroid.id sampleBullet.id
        sampleAsteroid.x (13/10 - sampleAsteroid.speed))).explosions =
      sampleState.explosions :=
  bullet_hit_resolution 0 (13/10) sampleState sampleAsteroid [] [] sampleBullet
    [] [] rfl (by decide) (by decide) rfl (by decide)
    (by simp only [qualifies, sampleAsteroid, sampleBullet, Bool.and_eq_true,
          decide_eq_true_eq]
        norm_num [abs_lt])
    (by decide) (by norm_num [sampleAsteroid])

/-- C4: a resolved hit on an asteroid at health 1 removes it from the
store, creates exactly one explosion at the hit point and adds 30 to
the score; three consecutive resolved hits on a fresh (health 3)
asteroid accumulate 5 + 5 + 30 = 40 points, remove it and create one
explosion. -/
theorem lethal_hit_resolution (s : GameState) (apre apost : List Asteroid)
    (a : Asteroid) (bid : Nat) (hy : ℚ)
    (hA : s.asteroids = apre ++ a :: apost)
    (hAu : ∀ c ∈ apre ++ apost, c.id ≠ a.id)
    (h1 : a.health = 1) :
    (step s (GEvent.eHit a.id bid a.x hy)).asteroids = apre ++ apost ∧
    (step s (GEvent.eHit a.id bid a.x hy)).explosions =
      s.explosions ++ [{ id := s.explosionId, x := a.x, y := hy }] ∧
    (step s (GEvent.eHit a.id bid a.x hy)).score = s.score + 30 ∧
    ∀ (t : GameState) (tpre tpost : List Asteroid) (c : Asteroid)
      (b1 b2 b3 : Nat) (y1 y2 y3 : ℚ),
      t.asteroids = tpre ++ c :: tpost →
      (∀ d ∈ tpre ++ tpost, d.id ≠ c.id) →
      c.health = 3 →
      (run t [GEvent.eHit c.id b1 c.x y1, GEvent.eHit c.id b2 c.x y2,
              GEvent.eHit c.id b3 c.x y3]).score = t.score + 40 ∧
      (run t [GEvent.eHit c.id b1 c.x y1, GEvent.eHit c.id b2 c.x y2,
              GEvent.eHit c.id b3 c.x y3]).asteroids = tpre ++ tpost ∧
      (run t [GEvent.eHit c.id b1 c.x y1, GEvent.eHit c.id b2 c.x y2,
              GEvent.eHit c.id b3 c.x y3]).explosions =
        t.explosions ++ [{ id := t.explosionId, x := c.x, y := y3 }] := by
  have hpre : ∀ c ∈ apre, c.id ≠ a.id :=
    fun c hc => hAu c (List.mem_append_left _ hc)
  have hpost : ∀ c ∈ apost, c.id ≠ a.id :=
    fun c hc => hAu c (List.mem_append_right _ hc)
  obtain ⟨d1, d2, d3, _⟩ :=
    step_hit_destroy s apre apost a a.id bid a.x hy hA rfl hpre hpost rfl
      (by omega)
  refine ⟨d1, d3, d2, ?_⟩
  intro t tpre tpost c b1 b2 b3 y1 y2 y3 hT hTu h3
  have htpre : ∀ d ∈ tpre, d.id ≠ c.id :=
    fun d hd => hTu d (List.mem_append_left _ hd)
  have htpost : ∀ d ∈ tpost, d.id ≠ c.id :=
    fun d hd => hTu d (List.mem_append_right _ hd)
  obtain ⟨s1a, s1s, s1e, s1i⟩ :=
    step_hit_surv t tpre tpost c c.id b1 c.x y1 hT rfl htpre htpost (by omega)
  obtain ⟨s2a, s2s, s2e, s2i⟩ :=
    step_hit_surv (step t (GEvent.eHit c.id b1 c.x y1)) tpre tpost
      { c with health := c.health - 1 } c.id b2 c.x y2 s1a rfl htpre htpost
      (by show ¬ c.health - 1 - 1 ≤ 0; omega)
  obtain ⟨s3a, s3s, s3e, s3i⟩ :=
    step_hit_destroy
      (step (step t (GEvent.eHit c.id b1 c.x y1)) (GEvent.eHit c.id b2 c.x y2))
      tpre tpost
      { c with health := c.health - 1 - 1 } c.id b3 c.x y3 s2a rfl htpre htpost
      rfl (by show c.health - 1 - 1 - 1 ≤ 0; omega)
  refine ⟨?_, ?_, ?_⟩
  · show (step (step (step t (GEvent.eHit c.id b1 c.x y1))
      (GEvent.eHit c.id b2 c.x y2)) (GEvent.eHit c.id b3 c.x y3)).score =
      t.score + 40
    rw [s3s, s2s, s1s]
  · show (step (step (step t (GEvent.eHit c.id b1 c.x y1))
      (GEvent.eHit c.id b2 c.x y2)) (GEvent.eHit c.id b3 c.x y3)).asteroids =
      tpre ++ tpost
    exact s3a
  · show (step (step (step t (GEvent.eHit c.id b1 c.x y1))
      (GEvent.eHit c.id b2 c.x y2)) (GEvent.eHit c.id b3 c.x y3)).explosions =
      t.explosions ++ [{ id := t.explosionId, x := c.x, y := y3 }]
    rw [s3e, s2e, s1e, s2i, s1i]

/-- Witness for C4: a lethal hit on the health-1 sample asteroid. -/
theorem lethal_hit_resolution_witness :
    (step sampleStateOneHp (GEvent.eHit sampleAsteroidOneHp.id 0
        sampleAsteroidOneHp.x (12/10))).asteroids = [] ++ [] ∧
    (step sampleStateOneHp (GEvent.eHit sampleAsteroidOneHp.id 0
        sampleAsteroidOneHp.x (12/10))).explosions =
      sampleStateOneHp.explosions ++
        [{ id := sampleStateOneHp.explosionId, x := sampleAsteroidOneHp.x,
           y := 12/10 }] ∧
    (step sampleStateOneHp (GEvent.eHit sampleAsteroidOneHp.id 0
        sampleAsteroidOneHp.x (12/10))).score = sampleStateOneHp.score + 30 ∧
    ∀ (t : GameState) (tpre tpost : List Asteroid) (c : Asteroid)
      (b1 b2 b3 : Nat) (y1 y2 y3 : ℚ),
      t.asteroids = tpre ++ c :: tpost →
      (∀ d ∈ tpre ++ tpost, d.id ≠ c.id) →
      c.health = 3 →
      (run t [GEvent.eHit c.id b1 c.x y1, GEvent.eHit c.id b2 c.x y2,
              GEvent.eHit c.id b3 c.x y3]).score = t.score + 40 ∧
      (run t [GEvent.eHit c.id b1 c.x y1, GEvent.eHit c.id b2 c.x y2,
              GEvent.eHit c.id b3 c.x y3]).asteroids = tpre ++ tpost ∧
      (run t [GEvent.eHit c.id b1 c.x y1, GEvent.eHit c.id b2 c.x y2,
              GEvent.eHit c.id b3 c.x y3]).explosions =
        t.explosions ++ [{ id := t.explosionId, x := c.x, y := y3 }] :=
  lethal_hit_resolution sampleStateOneHp [] [] sampleAsteroidOneHp 0 (12/10)
    rfl (by decide) (by decide)

/-- C6: a game-over transition clears the asteroid and bullet stores,
creates exactly one explosion at the triggering position, sets the
game-over flag and leaves the score unchanged; on an empty bullet
store an asteroid's frame reports a ship collision exactly when both
axis distances to the ship at (shipX, -3.5) are below 0.5 and a
pass-through exactly when its y has dropped below -4.5. -/
theorem game_over_effects (s : GameState) (x y : ℚ) :
    (step s (GEvent.eGameOver x y)).asteroids = [] ∧
    (step s (GEvent.eGameOver x y)).bullets = [] ∧
    (step s (GEvent.eGameOver x y)).explosions =
      s.explosions ++ [{ id := s.explosionId, x := x, y := y }] ∧
    (step s (GEvent.eGameOver x y)).score = s.score ∧
    (step s (GEvent.eGameOver x y)).gameOver = true ∧
    ∀ (shipX : ℚ) (cd : Bool) (a : Asteroid) (yy : ℚ),
      asteroidFrame shipX [] cd a yy =
        if decide (|a.x - shipX| < 0.5) && decide (|yy - a.speed - (-3.5)| < 0.5) then
          FrameOutcome.shipCollision a.x (yy - a.speed)
        else if decide (yy - a.speed < -4.5) then
          FrameOutcome.passThrough a.x (yy - a.speed)
        else FrameOutcome.quiet (yy - a.speed) := by
  refine ⟨rfl, rfl, rfl, rfl, rfl, ?_⟩
  intro shipX cd a yy
  simp only [asteroidFrame, findHitBullet, ite_self]

/-- Counterexample to C5 as stated: a frame in which the asteroid at
(0.2, -3.2 after movement) is within 0.5 of the ship at (0, -3.5) on
both axes AND registers a bullet hit; the frame reports the hit and
returns early, so no ship-collision game-over is triggered on that
frame. -/
theorem ship_collision_skipped_on_hit_cex :
    |(1/5 : ℚ) - 0| < 0.5 ∧
    |(-(31/10) : ℚ) - 1/10 - (-3.5)| < 0.5 ∧
    asteroidFrame 0 [{ id := 7, x := 1/5, y := -(29/10) }] false
      { id := 0, x := 1/5, speed := 1/10, colorIndex := 0, health := 3 }
      (-(31/10)) =
      FrameOutcome.hit 0 7 (1/5) (-(31/10) - 1/10) ∧
    FrameOutcome.hit 0 7 (1/5) (-(31/10) - 1/10) ≠
      FrameOutcome.shipCollision (1/5) (-(31/10) - 1/10) ∧
    FrameOutcome.hit 0 7 (1/5) (-(31/10) - 1/10) ≠
      FrameOutcome.passThrough (1/5) (-(31/10) - 1/10) := by
  have hq : qualifies (1/5) (-(31/10) - 1/10)
      { id := 7, x := 1/5, y := -(29/10) } = true := by
    simp only [qualifies, Bool.and_eq_true, decide_eq_true_eq]
    norm_num [abs_lt]
  refine ⟨by norm_num [abs_lt], by norm_num [abs_lt], ?_, by simp, by simp⟩
  simp only [asteroidFrame, Bool.not_false, Bool.true_and]
  rw [if_pos (by norm_num), findHitBullet, if_pos hq]

/-- C5 (amended): the ship-collision test runs each frame only when no
bullet hit was registered for the asteroid in that frame (the hit
branch returns early); in that case, whenever after this frame's
movement both axis distances to the ship at (shipX, -3.5) are below
0.5, the frame triggers game-over via ship collision at the asteroid's
position. -/
theorem ship_collision_when_no_hit (shipX : ℚ) (bullets : List Bullet)
    (cd : Bool) (a : Asteroid) (y : ℚ)
    (hnb : ∀ b ∈ bullets, qualifies a.x (y - a.speed) b = false)
    (h1 : |a.x - shipX| < 0.5) (h2 : |y - a.speed - (-3.5)| < 0.5) :
    asteroidFrame shipX bullets cd a y =
      FrameOutcome.shipCollision a.x (y - a.speed) := by
  have hfn : findHitBullet a.x (y - a.speed) bullets = none :=
    findHitBullet_none _ _ _ hnb
  simp only [asteroidFrame, hfn, ite_self]
  rw [if_pos (by simp only [Bool.and_eq_true, decide_eq_true_eq]; exact ⟨h1, h2⟩)]

/-- Witness for C5's amended theorem at the spec's scenario 5: ship at
x = 0, asteroid at (0.2, -3.6) after movement, no live bullets — the
frame reports game-over via ship collision, not pass-through. -/
theorem ship_collision_when_no_hit_witness :
    asteroidFrame 0 [] false
      { id := 0, x := 1/5, speed := 1/10, colorIndex := 0, health := 3 }
      (-(7/2)) =
      FrameOutcome.shipCollision (1/5) (-(7/2) - 1/10) :=
  ship_collision_when_no_hit 0 [] false
    { id := 0, x := 1/5, speed := 1/10, colorIndex := 0, health := 3 }
    (-(7/2)) (by decide) (by norm_num [abs_lt]) (by norm_num [abs_lt])

/-- C9: starting from any (re)started session, the authoritative ship
x target stays within [-4, 4] under every sequence of move-left,
move-right and move-to inputs (and all other events). -/
theorem ship_target_clamped (s : GameState) (d1 d2 d3 : ℚ × ℚ × Nat)
    (evs : List GEvent) :
    -4 ≤ (run (startGame s d1 d2 d3) evs).shipPos ∧
    (run (startGame s d1 d2 d3) evs).shipPos ≤ 4 := by
  apply run_ship
  constructor <;> norm_num [startGame]

/-- C7: the start and restart transitions perform one identical reset
(the same `startGame`): exactly 3 asteroids with health 3, x from each
asteroid's own draw and speed in the baseline range [0.012, 0.020)
whenever the speed draws lie in [0, 1); the bullet and explosion
stores are empty, score is 0, elapsed time is 0 and the ship is back
at x = 0; the result does not depend on the prior session beyond the
id counters. -/
theorem start_restart_reset (s t : GameState) (d1 d2 d3 : ℚ × ℚ × Nat)
    (h10 : 0 ≤ d1.2.1) (h11 : d1.2.1 < 1)
    (h20 : 0 ≤ d2.2.1) (h21 : d2.2.1 < 1)
    (h30 : 0 ≤ d3.2.1) (h31 : d3.2.1 < 1) :
    (startGame s d1 d2 d3).asteroids.length = 3 ∧
    (∀ a ∈ (startGame s d1 d2 d3).asteroids, a.health = 3) ∧
    (∀ a ∈ (startGame s d1 d2 d3).asteroids,
      0.012 ≤ a.speed ∧ a.speed < 0.020) ∧
    (startGame s d1 d2 d3).asteroids.map (fun a => a.x) =
      [(d1.1 - 0.5) * 8, (d2.1 - 0.5) * 8, (d3.1 - 0.5) * 8] ∧
    (startGame s d1 d2 d3).bullets = [] ∧
    (startGame s d1 d2 d3).explosions = [] ∧
    (startGame s d1 d2 d3).score = 0 ∧
    (startGame s d1 d2 d3).gameTime = 0 ∧
    (startGame s d1 d2 d3).shipPos = 0 ∧
    (startGame s d1 d2 d3).gameOver = false ∧
    (startGame s d1 d2 d3).gameStarted = true ∧
    (s.bulletId = t.bulletId → s.asteroidId = t.asteroidId →
      s.explosionId = t.explosionId →
      startGame s d1 d2 d3 = startGame t d1 d2 d3) := by
  refine ⟨rfl, ?_, ?_, rfl, rfl, rfl, rfl, rfl, rfl, rfl, rfl, ?_⟩
  · intro a ha
    simp only [startGame, List.mem_cons, List.not_mem_nil, or_false] at ha
    rcases ha with ha | ha | ha <;> subst ha <;> rfl
  · intro a ha
    simp only [startGame, List.mem_cons, List.not_mem_nil, or_false] at ha
    have key : ∀ (r : ℚ), 0 ≤ r → r < 1 →
        (0.012 : ℚ) ≤ 0.012 + r * 0.008 ∧ 0.012 + r * 0.008 < 0.020 := by
      intro r hr0 hr1
      constructor
      · nlinarith
      · nlinarith
    rcases ha with ha | ha | ha <;> subst ha
    · exact key d1.2.1 h10 h11
    · exact key d2.2.1 h20 h21
    · exact key d3.2.1 h30 h31
  · intro hb ha he
    simp [startGame, hb, ha, he]

/-- Witness for C7 at concrete prior states and draws (1/2, 1/2, 0). -/
theorem start_restart_reset_witness :
    (startGame sampleState (1/2, 1/2, 0) (1/2, 1/2, 0) (1/2, 1/2, 0)).asteroids.length = 3 ∧
    (∀ a ∈ (startGame sampleState (1/2, 1/2, 0) (1/2, 1/2, 0) (1/2, 1/2, 0)).asteroids,
      a.health = 3) ∧
    (∀ a ∈ (startGame sampleState (1/2, 1/2, 0) (1/2, 1/2, 0) (1/2, 1/2, 0)).asteroids,
      0.012 ≤ a.speed ∧ a.speed < 0.020) ∧
    (startGame sampleState (1/2, 1/2, 0) (1/2, 1/2, 0) (1/2, 1/2, 0)).asteroids.map
        (fun a => a.x) =
      [((1/2 : ℚ) - 0.5) * 8, ((1/2 : ℚ) - 0.5) * 8, ((1/2 : ℚ) - 0.5) * 8] ∧
    (startGame sampleState (1/2, 1/2, 0) (1/2, 1/2, 0) (1/2, 1/2, 0)).bullets = [] ∧
    (startGame sampleState (1/2, 1/2, 0) (1/2, 1/2, 0) (1/2, 1/2, 0)).explosions = [] ∧
    (startGame sampleState (1/2, 1/2, 0) (1/2, 1/2, 0) (1/2, 1/2, 0)).score = 0 ∧
    (startGame sampleState (1/2, 1/2, 0) (1/2, 1/2, 0) (1/2, 1/2, 0)).gameTime = 0 ∧
    (startGame sampleState (1/2, 1/2, 0) (1/2, 1/2, 0) (1/2, 1/2, 0)).shipPos = 0 ∧
    (startGame sampleState (1/2, 1/2, 0) (1/2, 1/2, 0) (1/2, 1/2, 0)).gameOver = false ∧
    (startGame sampleState (1/2, 1/2, 0) (1/2, 1/2, 0) (1/2, 1/2, 0)).gameStarted = true ∧
    (sampleState.bulletId = sampleStateOneHp.bulletId →
      sampleState.asteroidId = sampleStateOneHp.asteroidId →
      sampleState.explosionId = sampleStateOneHp.explosionId →
      startGame sampleState (1/2, 1/2, 0) (1/2, 1/2, 0) (1/2, 1/2, 0) =
        startGame sampleStateOneHp (1/2, 1/2, 0) (1/2, 1/2, 0) (1/2, 1/2, 0)) :=
  start_restart_reset sampleState sampleStateOneHp (1/2, 1/2, 0) (1/2, 1/2, 0)
    (1/2, 1/2, 0) (by norm_num) (by norm_num) (by norm_num) (by norm_num)
    (by norm_num) (by norm_num)

/-- Counterexample to C8's claimed speed cap of about 0.035: at
elapsed time t = 50 with speed draw 0.9 (a legal draw in [0, 1)), the
spawned asteroid's speed is 0.027 + 0.9 * 0.015 = 0.0405 > 0.035. -/
theorem spawn_speed_cap_cex :
    (step { shipPos := 0, bullets := [], asteroids := [], explosions := [],
            score := 0, gameOver := false, gameStarted := true, gameTime := 50,
            bulletId := 0, asteroidId := 0, explosionId := 0 }
        (GEvent.eSpawn (1/2) (9/10) 0)).asteroids =
      [{ id := 0, x := ((1/2 : ℚ) - 0.5) * 8,
         speed := baseSpeed 50 + (9/10) * speedVariation 50,
         colorIndex := 0, health := 3 }] ∧
    (0 : ℚ) ≤ 9/10 ∧ (9/10 : ℚ) < 1 ∧
    (0.035 : ℚ) < baseSpeed 50 + (9/10) * speedVariation 50 := by
  refine ⟨rfl, by norm_num, by norm_num, ?_⟩
  rw [baseSpeed, speedVariation]
  norm_num [min_def]

/-- C8 (amended): an asteroid spawned at elapsed time t while playing
has speed exactly baseSpeed(t) + rs * speedVariation(t), with
baseSpeed(t) = 0.012 + min(t*0.0003, 0.015) and speedVariation(t) =
0.008 + min(t*0.0002, 0.007); for any t and any draw rs in [0, 1) this
speed is below 0.042. -/
theorem spawn_speed_formula (s : GameState) (rx rs : ℚ) (rc : Nat)
    (hp : playing s = true) (h0 : 0 ≤ rs) (h1 : rs < 1) :
    (step s (GEvent.eSpawn rx rs rc)).asteroids =
      s.asteroids ++
        [{ id := s.asteroidId, x := (rx - 0.5) * 8,
           speed := baseSpeed s.gameTime + rs * speedVariation s.gameTime,
           colorIndex := rc, health := 3 }] ∧
    baseSpeed s.gameTime + rs * speedVariation s.gameTime < 0.042 := by
  constructor
  · simp only [step]
    rw [if_pos hp]
    rfl
  · have hb : baseSpeed s.gameTime ≤ 0.027 := by
      rw [baseSpeed]
      have := min_le_right ((s.gameTime : ℚ) * 0.0003) 0.015
      linarith
    have hv : speedVariation s.gameTime ≤ 0.015 := by
      rw [speedVariation]
      have := min_le_right ((s.gameTime : ℚ) * 0.0002) 0.007
      linarith
    have hv0 : 0 ≤ speedVariation s.gameTime := by
      rw [speedVariation]
      have h2 : (0 : ℚ) ≤ min ((s.gameTime : ℚ) * 0.0002) 0.007 :=
        le_min (by positivity) (by norm_num)
      linarith
    nlinarith

/-- Witness for C8's amended theorem at the sample state with draw
rs = 1/2. -/
theorem spawn_speed_formula_witness :
    (step sampleState (GEvent.eSpawn (1/2) (1/2) 0)).asteroids =
      sampleState.asteroids ++
        [{ id := sampleState.asteroidId, x := ((1/2 : ℚ) - 0.5) * 8,
           speed := baseSpeed sampleState.gameTime +
             (1/2) * speedVariation sampleState.gameTime,
           colorIndex := 0, health := 3 }] ∧
    baseSpeed sampleState.gameTime +
      (1/2) * speedVariation sampleState.gameTime < 0.042 :=
  spawn_speed_formula sampleState (1/2) (1/2) 0 (by decide) (by norm_num)
    (by norm_num)

/-- C10: an explosion's opacity starts at 1 and falls by 0.05 per
frame tick; it stays positive for the first 19 ticks and reaches ≤ 0
exactly at tick 20, at which point the completion callback removes the
explosion from the store. -/
theorem explosion_lifetime :
    opacityAfter 0 = 1 ∧
    (∀ n : Nat, opacityAfter (n + 1) = opacityAfter n - 0.05) ∧
    (∀ n : Nat, n < 20 → 0 < opacityAfter n) ∧
    opacityAfter 20 ≤ 0 ∧
    ∀ (s : GameState) (eid : Nat),
      (step s (GEvent.eExplosionDone eid)).explosions =
        s.explosions.filter (fun e => e.id ≠ eid) := by
  refine ⟨rfl, fun n => rfl, ?_, ?_, fun s eid => rfl⟩
  · intro n hn
    rw [opacityAfter_eq]
    have h : (n : ℚ) < 20 := by exact_mod_cast hn
    linarith
  · rw [opacityAfter_eq]
    norm_num

end SpaceShooter
